import Mathlib

/-!
Shallow embedding of the connectify chat backend (`src/server.js`).

The service keeps two collections in a document store: `messages` and
`users`.  Real-time handlers (`registerUser`, `sendMessage`, `clearChat`,
`disconnect`) mutate them and emit events; two HTTP handlers read them, and
`POST /upload` stores a file.  We model the store as lists kept in insertion
order (Mongo natural order), a socket id as a `Nat`, and the store-assigned
message id / server clock as counters in the state.  JavaScript `x || d`
on string fields is modelled by `jsOrEmpty` / `jsOrNull` (the empty string
is falsy).
-/

namespace Connectify

/-- Message record, as the `messageSchema`: sender, content, optional
fileUrl/fileType, server-assigned timestamp; `id` models the store-assigned
`_id`. -/
structure Message where
  id : Nat
  sender : String
  content : String
  fileUrl : Option String
  fileType : Option String
  timestamp : Nat
deriving DecidableEq, Repr

/-- User record, as the `userSchema`: unique username, optional socketId
(present exactly while a connection is live), joinedAt. -/
structure UserRec where
  username : String
  socketId : Option Nat
  joinedAt : Nat
deriving DecidableEq, Repr

/-- Server-side store state plus the id counter and clock. -/
structure ServerState where
  users : List UserRec
  messages : List Message
  nextId : Nat
  time : Nat
deriving DecidableEq, Repr

/-- Payload of a `sendMessage` event: each field may be absent. -/
structure MsgPayload where
  content : Option String
  fileUrl : Option String
  fileType : Option String
deriving DecidableEq, Repr

/-- Payload of a `receiveMessage` broadcast: either a single saved message
(`io.emit("receiveMessage", newMessage)`) or a bare list (`io.emit
("receiveMessage", [])` in `clearChat`). -/
inductive BroadcastPayload where
  | msg (m : Message)
  | list (ms : List Message)
deriving DecidableEq, Repr

/-- Observable socket.io output.  The `broadcast*` constructors are
`io.emit` (to every connected party); `toSocketError` is `socket.emit
("error", ...)` to the one offending connection. -/
inductive Emit where
  | broadcastUserConnected (names : List String)
  | broadcastUserDisconnected (names : List String)
  | broadcastReceiveMessage (p : BroadcastPayload)
  | toSocketError (sid : Nat) (message : String)
deriving DecidableEq, Repr

/-- JavaScript `s || ""` on an optional string field (`data.content || ""`):
for strings this is the field's value when present, `""` when absent. -/
def jsOrEmpty (o : Option String) : String :=
  match o with
  | some s => s
  | none => ""

/-- JavaScript `s || null` on an optional string field
(`data.fileUrl || null`): the empty string is falsy, so it becomes `null`. -/
def jsOrNull (o : Option String) : Option String :=
  match o with
  | some s => if s = "" then none else some s
  | none => none

/-- Mongo `User.findOneAndUpdate({username: u}, {socketId: sid},
{upsert: true})`: update the first record whose username is `u`, setting its
socketId; when none matches, insert a fresh record (at the end, natural
order). -/
def findOneAndUpdateUser : List UserRec → String → Nat → Nat → List UserRec
  | [], u, sid, now => [⟨u, some sid, now⟩]
  | r :: rest, u, sid, now =>
    if r.username = u then { r with socketId := some sid } :: rest
    else r :: findOneAndUpdateUser rest u sid now

/-- Mongo `User.findOneAndUpdate({socketId: sid}, {$unset: {socketId: 1}})`:
unset the socketId of the first record currently holding `sid`; no-op when
none matches. -/
def unsetSocketIdFirst : List UserRec → Nat → List UserRec
  | [], _ => []
  | r :: rest, sid =>
    if r.socketId = some sid then { r with socketId := none } :: rest
    else r :: unsetSocketIdFirst rest sid

/-- Mongo `User.find({socketId: {$exists: true}}).select("username -_id")`
followed by `.map(user => user.username)`. -/
def onlineUsernames (users : List UserRec) : List String :=
  (users.filter fun r => r.socketId.isSome).map fun r => r.username

/-- The `registerUser` handler: upsert the user keyed by username with this
connection's socket id, then broadcast the recomputed online list. -/
def registerUser (st : ServerState) (u : String) (sid : Nat) :
    ServerState × List Emit :=
  let st' := { st with users := findOneAndUpdateUser st.users u sid st.time }
  (st', [Emit.broadcastUserConnected (onlineUsernames st'.users)])

/-- The `disconnect` handler: unset the socketId on whichever user record
holds this connection's id, then broadcast the recomputed online list. -/
def disconnectUser (st : ServerState) (sid : Nat) :
    ServerState × List Emit :=
  let st' := { st with users := unsetSocketIdFirst st.users sid }
  (st', [Emit.broadcastUserDisconnected (onlineUsernames st'.users)])

/-- The `sendMessage` handler: look up the user whose socketId equals the
sending connection's id; if none, emit the authorization error to that
connection only; otherwise persist a new message (content defaulted by `||`
to the empty string, fileUrl/fileType by `||` to null, store-assigned id,
server timestamp) and broadcast the saved message. -/
def sendMessage (st : ServerState) (sid : Nat) (p : MsgPayload) :
    ServerState × List Emit :=
  match st.users.find? (fun r => r.socketId = some sid) with
  | none => (st, [Emit.toSocketError sid "Unauthorized user"])
  | some sender =>
    let m : Message :=
      ⟨st.nextId, sender.username, jsOrEmpty p.content, jsOrNull p.fileUrl,
        jsOrNull p.fileType, st.time⟩
    ({ st with messages := st.messages ++ [m], nextId := st.nextId + 1 },
      [Emit.broadcastReceiveMessage (BroadcastPayload.msg m)])

/-- The `clearChat` handler: `Message.deleteMany()` then broadcast an empty
message list to everyone.  It ignores which connection issued it. -/
def clearChat (st : ServerState) : ServerState × List Emit :=
  ({ st with messages := [] },
    [Emit.broadcastReceiveMessage (BroadcastPayload.list [])])

/-- The `GET /messages` handler body: `Message.find()`, natural order. -/
def getMessages (st : ServerState) : List Message :=
  st.messages

/-- The `GET /online-users` handler body. -/
def getOnlineUsers (st : ServerState) : List String :=
  onlineUsernames st.users

/-- A client→server real-time event, carrying the socket id it arrives on. -/
inductive Event where
  | register (u : String) (sid : Nat)
  | disconnect (sid : Nat)
  | send (sid : Nat) (p : MsgPayload)
  | clear
deriving DecidableEq, Repr

/-- One sequential (run-to-completion) event step; the server clock advances
after each handled event. -/
def step (st : ServerState) (e : Event) : ServerState × List Emit :=
  let r := match e with
    | Event.register u sid => registerUser st u sid
    | Event.disconnect sid => disconnectUser st sid
    | Event.send sid p => sendMessage st sid p
    | Event.clear => clearChat st
  ({ r.1 with time := r.1.time + 1 }, r.2)

/-- State reached after one event. -/
def stepState (st : ServerState) (e : Event) : ServerState :=
  (step st e).1

/-- Run a sequential trace of events from a given state. -/
def runFrom (st : ServerState) (tr : List Event) : ServerState :=
  tr.foldl stepState st

/-- The state of a freshly started server: empty collections. -/
def initState : ServerState :=
  ⟨[], [], 0, 0⟩

/-- Run a sequential trace of events from a fresh server. -/
def runTrace (tr : List Event) : ServerState :=
  runFrom initState tr

/-! ## Specification-side definitions

The spec characterises presence as: a username is online exactly when its
most recent registration has not been followed by a disconnect of the
connection that made that registration.  `specOnline` is the literal
transcription: walk the trace backwards, collecting the sockets
disconnected later, and at the most recent registration of `u` check
whether its socket is among them.  `specBinding` is the equivalent
forward fold used in the inductive proofs. -/

/-- Walk the reversed trace; `ds` collects sockets whose disconnect occurs
later (in original order) than the current position. -/
def specOnlineGo : List Event → List Nat → String → Bool
  | [], _, _ => false
  | Event.register v s :: rest, ds, u =>
    if v = u then decide (s ∉ ds) else specOnlineGo rest ds u
  | Event.disconnect s :: rest, ds, u => specOnlineGo rest (s :: ds) u
  | _ :: rest, ds, u => specOnlineGo rest ds u

/-- The spec's presence predicate: the most recent registration of `u`
exists and has not been followed by a disconnect of its connection. -/
def specOnline (tr : List Event) (u : String) : Bool :=
  specOnlineGo tr.reverse [] u

/-- Forward-fold formulation of the spec binding of `u`: the socket of the
most recent registration of `u`, unless a later disconnect of that socket
cleared it. -/
def specBindingStep (u : String) (b : Option Nat) (e : Event) : Option Nat :=
  match e with
  | Event.register v s => if v = u then some s else b
  | Event.disconnect s => if b = some s then none else b
  | _ => b

/-- Spec-side binding of username `u` after a trace. -/
def specBinding (tr : List Event) (u : String) : Option Nat :=
  tr.foldl (specBindingStep u) none

/-- Decidable check: the trace contains only registerUser and disconnect
events. -/
def presenceEvent : Event → Bool
  | Event.register _ _ => true
  | Event.disconnect _ => true
  | _ => false

/-- Decidable check on an event pair: two registrations from the same
socket carry the same username. -/
def regSameSocketOk : Event → Event → Bool
  | Event.register u s, Event.register v t => decide (s = t → u = v)
  | _, _ => true

/-- Decidable check: every connection (socket id) registers at most one
username over the whole trace. -/
def oneNamePerSocket (tr : List Event) : Bool :=
  tr.all fun e => tr.all fun f => regSameSocketOk e f

/-- Implementation-side binding of username `u`: the socketId of the first
user record with that username (none when no record). -/
def userBinding : List UserRec → String → Option Nat
  | [], _ => none
  | r :: rest, u => if r.username = u then r.socketId else userBinding rest u

/-! ## HTTP results and store-failure model

Every store call in a handler models failure by an injected `fail` value:
`none` means the store works, `some e` means the first store call of the
handler rejects with message `e`.  The `try/catch` structure of each
handler decides what happens then. -/

/-- Result of an HTTP GET handler: `ok` is `res.json(body)`; `serverError`
is `res.status(500).json({error: err.message})` carrying the raw message. -/
inductive HttpResult (α : Type) where
  | ok (body : α)
  | serverError (error : String)
deriving DecidableEq, Repr

/-- Outcome of one real-time handler invocation: resulting state, socket
emissions, `console.error` log lines, and an exception that escaped the
handler uncaught (an unhandled promise rejection), if any. -/
structure RtOutcome where
  state : ServerState
  emits : List Emit
  logs : List String
  uncaught : Option String
deriving DecidableEq, Repr

/-- `GET /messages` with failure injection: the handler has try/catch, so a
store error becomes a 500 response with the raw error message. -/
def getMessagesF (st : ServerState) (fail : Option String) :
    HttpResult (List Message) :=
  match fail with
  | none => HttpResult.ok (getMessages st)
  | some e => HttpResult.serverError e

/-- `GET /online-users` with failure injection; same try/catch shape. -/
def getOnlineUsersF (st : ServerState) (fail : Option String) :
    HttpResult (List String) :=
  match fail with
  | none => HttpResult.ok (getOnlineUsers st)
  | some e => HttpResult.serverError e

/-- `registerUser` with failure injection: the handler wraps its store
calls in try/catch and `console.error`s the error, emitting nothing. -/
def registerUserF (st : ServerState) (u : String) (sid : Nat)
    (fail : Option String) : RtOutcome :=
  match fail with
  | none => ⟨(registerUser st u sid).1, (registerUser st u sid).2, [], none⟩
  | some e => ⟨st, [], [e], none⟩

/-- `sendMessage` with failure injection: try/catch plus `console.error`. -/
def sendMessageF (st : ServerState) (sid : Nat) (p : MsgPayload)
    (fail : Option String) : RtOutcome :=
  match fail with
  | none => ⟨(sendMessage st sid p).1, (sendMessage st sid p).2, [], none⟩
  | some e => ⟨st, [], [e], none⟩

/-- `disconnect` with failure injection: try/catch plus `console.error`. -/
def disconnectUserF (st : ServerState) (sid : Nat)
    (fail : Option String) : RtOutcome :=
  match fail with
  | none => ⟨(disconnectUser st sid).1, (disconnectUser st sid).2, [], none⟩
  | some e => ⟨st, [], [e], none⟩

/-- `clearChat` with failure injection: this handler has NO try/catch, so a
rejected `Message.deleteMany()` is logged by nobody and escapes the handler
as an unhandled rejection; nothing is emitted. -/
def clearChatF (st : ServerState) (fail : Option String) : RtOutcome :=
  match fail with
  | none => ⟨(clearChat st).1, (clearChat st).2, [], none⟩
  | some e => ⟨st, [], [], some e⟩

/-! ## File upload -/

/-- Last index of a dot in the character list, if any. -/
def lastDotAux : List Char → Nat → Option Nat → Option Nat
  | [], _, acc => acc
  | c :: rest, i, acc =>
    lastDotAux rest (i + 1) (if c = '.' then some i else acc)

/-- Node's `path.extname` on a plain file name: the substring from the last
dot to the end, except that a name with no dot, or whose only dot is its
first character, has extension `""`. -/
def extname (s : String) : String :=
  match lastDotAux s.toList 0 none with
  | none => ""
  | some 0 => ""
  | some i => String.mk (s.toList.drop i)

/-- The multipart file part as multer presents it. -/
structure UploadedFile where
  originalname : String
  mimetype : String
deriving DecidableEq, Repr

/-- Response of `POST /upload`. -/
inductive UploadResp where
  | ok (fileUrl : String) (fileType : String)
  | badRequest (error : String)
deriving DecidableEq, Repr

/-- The `POST /upload` handler: 400 when no file part is present; otherwise
the stored name is `Date.now() + path.extname(originalname)` and the
response carries its public URL and the detected MIME type. -/
def uploadHandler (file : Option UploadedFile) (now : Nat) : UploadResp :=
  match file with
  | none => UploadResp.badRequest "No file uploaded"
  | some f =>
    UploadResp.ok ("/uploads/" ++ toString now ++ extname f.originalname)
      f.mimetype

/-! ## Basic lemmas about traces and the spec-side presence definitions -/

theorem specBinding_append_single (tr : List Event) (e : Event) (u : String) :
    specBinding (tr ++ [e]) u = specBindingStep u (specBinding tr u) e := by
  simp [specBinding, List.foldl_append]

theorem runTrace_append_single (tr : List Event) (e : Event) :
    runTrace (tr ++ [e]) = stepState (runTrace tr) e := by
  simp [runTrace, runFrom, List.foldl_append]

theorem specOnlineGo_eq_specBinding (rtr : List Event) (ds : List Nat)
    (u : String) :
    specOnlineGo rtr ds u =
      match specBinding rtr.reverse u with
      | some s => decide (s ∉ ds)
      | none => false := by
  induction rtr generalizing ds with
  | nil => simp [specOnlineGo, specBinding]
  | cons e rest ih =>
    have hrev : (e :: rest).reverse = rest.reverse ++ [e] := by simp
    rw [hrev, specBinding_append_single]
    cases e with
    | register v s =>
      by_cases hv : v = u
      · simp [specOnlineGo, hv, specBindingStep]
      · simp only [specOnlineGo, hv, if_neg, ih, specBindingStep]
        have : ¬ v = u := hv
        simp [this]
    | disconnect s =>
      simp only [specOnlineGo, ih, specBindingStep]
      cases hb : specBinding rest.reverse u with
      | none => simp
      | some t =>
        by_cases hts : t = s
        · subst hts; simp
        · have : ¬ (some t = some s) := by simp [hts]
          simp [this, hts]
    | send sid p => simp only [specOnlineGo, ih, specBindingStep]
    | clear => simp only [specOnlineGo, ih, specBindingStep]

theorem specOnline_eq_isSome (tr : List Event) (u : String) :
    specOnline tr u = (specBinding tr u).isSome := by
  rw [specOnline, specOnlineGo_eq_specBinding]
  simp only [List.reverse_reverse]
  cases specBinding tr u <;> simp

/-- Propositional form of `oneNamePerSocket`. -/
def OneNamePerSocket (tr : List Event) : Prop :=
  ∀ u s v, Event.register u s ∈ tr → Event.register v s ∈ tr → u = v

theorem oneNamePerSocket_sound (tr : List Event)
    (h : oneNamePerSocket tr = true) : OneNamePerSocket tr := by
  intro u s v hu hv
  have h1 := List.all_eq_true.mp h _ hu
  have h2 := List.all_eq_true.mp h1 _ hv
  simp [regSameSocketOk] at h2
  exact h2

theorem OneNamePerSocket.of_append_single {tr : List Event} {e : Event}
    (h : OneNamePerSocket (tr ++ [e])) : OneNamePerSocket tr := by
  intro u s v hu hv
  exact h u s v (List.mem_append_left _ hu) (List.mem_append_left _ hv)

/-! ## Lemmas about the user-collection operations -/

/-- Usernames of the user collection, in order. -/
def NodupNames (us : List UserRec) : Prop :=
  (us.map fun r => r.username).Nodup

/-- Two records never hold the same live socket id. -/
def sockDisjoint (r q : UserRec) : Prop :=
  ∀ s : Nat, r.socketId = some s → q.socketId ≠ some s

/-- Pairwise socket disjointness of the user collection. -/
def SockUnique (us : List UserRec) : Prop :=
  us.Pairwise sockDisjoint

/-- Every live socket id in the collection stems from a registration event
recorded in the trace. -/
def SockFromTrace (tr : List Event) (us : List UserRec) : Prop :=
  ∀ r ∈ us, ∀ s : Nat, r.socketId = some s → Event.register r.username s ∈ tr

theorem mem_findOneAndUpdateUser {us : List UserRec} {u : String}
    {sid now : Nat} {q : UserRec} (hq : q ∈ findOneAndUpdateUser us u sid now) :
    q ∈ us ∨ (q.username = u ∧ q.socketId = some sid) := by
  induction us with
  | nil =>
    simp [findOneAndUpdateUser] at hq
    subst hq; right; exact ⟨rfl, rfl⟩
  | cons r rest ih =>
    by_cases hr : r.username = u
    · simp [findOneAndUpdateUser, hr] at hq
      rcases hq with hq | hq
      · subst hq; right; refine ⟨?_, ?_⟩ <;> simp [hr]
      · left; exact List.mem_cons_of_mem _ hq
    · simp only [findOneAndUpdateUser, if_neg hr, List.mem_cons] at hq
      rcases hq with hq | hq
      · subst hq; left; exact List.mem_cons_self _ _
      · rcases ih hq with h | h
        · left; exact List.mem_cons_of_mem _ h
        · right; exact h

theorem mem_findOneAndUpdateUser_of_ne {us : List UserRec} {u : String}
    {sid now : Nat} {r : UserRec} (hr : r ∈ us) (hne : r.username ≠ u) :
    r ∈ findOneAndUpdateUser us u sid now := by
  induction us with
  | nil => cases hr
  | cons q rest ih =>
    by_cases hq : q.username = u
    · simp only [findOneAndUpdateUser, if_pos hq]
      rcases List.mem_cons.mp hr with h | h
      · exact absurd (h ▸ hq) hne
      · exact List.mem_cons_of_mem _ h
    · simp only [findOneAndUpdateUser, if_neg hq]
      rcases List.mem_cons.mp hr with h | h
      · subst h; exact List.mem_cons_self _ _
      · exact List.mem_cons_of_mem _ (ih h)

theorem mem_unsetSocketIdFirst {us : List UserRec} {sid : Nat} {q : UserRec}
    (hq : q ∈ unsetSocketIdFirst us sid) :
    q ∈ us ∨ ∃ r ∈ us, q = { r with socketId := none } := by
  induction us with
  | nil => cases hq
  | cons r rest ih =>
    by_cases hr : r.socketId = some sid
    · simp only [unsetSocketIdFirst, if_pos hr, List.mem_cons] at hq
      rcases hq with hq | hq
      · right; exact ⟨r, List.mem_cons_self _ _, hq⟩
      · left; exact List.mem_cons_of_mem _ hq
    · simp only [unsetSocketIdFirst, if_neg hr, List.mem_cons] at hq
      rcases hq with hq | hq
      · subst hq; left; exact List.mem_cons_self _ _
      · rcases ih hq with h | ⟨r', hr', he⟩
        · left; exact List.mem_cons_of_mem _ h
        · right; exact ⟨r', List.mem_cons_of_mem _ hr', he⟩

theorem mem_unsetSocketIdFirst_of_ne {us : List UserRec} {sid : Nat}
    {r : UserRec} (hr : r ∈ us) (hne : r.socketId ≠ some sid) :
    r ∈ unsetSocketIdFirst us sid := by
  induction us with
  | nil => cases hr
  | cons q rest ih =>
    rcases List.mem_cons.mp hr with h | h
    · subst h
      simp only [unsetSocketIdFirst, if_neg hne]
      exact List.mem_cons_self _ _
    · by_cases hq : q.socketId = some sid
      · simp only [unsetSocketIdFirst, if_pos hq]
        exact List.mem_cons_of_mem _ h
      · simp only [unsetSocketIdFirst, if_neg hq]
        exact List.mem_cons_of_mem _ (ih h)

theorem userBinding_eq_some {us : List UserRec} {u : String} {s : Nat}
    (h : userBinding us u = some s) :
    ∃ r ∈ us, r.username = u ∧ r.socketId = some s := by
  induction us with
  | nil => simp [userBinding] at h
  | cons r rest ih =>
    by_cases hr : r.username = u
    · rw [userBinding, if_pos hr] at h
      exact ⟨r, List.mem_cons_self _ _, hr, h⟩
    · rw [userBinding, if_neg hr] at h
      obtain ⟨q, hq, hqs⟩ := ih h
      exact ⟨q, List.mem_cons_of_mem _ hq, hqs⟩

theorem userBinding_findOneAndUpdateUser (us : List UserRec) (u : String)
    (sid now : Nat) (v : String) :
    userBinding (findOneAndUpdateUser us u sid now) v =
      if v = u then some sid else userBinding us v := by
  induction us with
  | nil =>
    by_cases hv : v = u
    · simp [findOneAndUpdateUser, userBinding, hv]
    · have : ¬ u = v := fun h => hv h.symm
      simp [findOneAndUpdateUser, userBinding, hv, this]
  | cons r rest ih =>
    by_cases hr : r.username = u
    · rw [findOneAndUpdateUser, if_pos hr]
      by_cases hv : v = u
      · have : ({ r with socketId := some sid }).username = v := by
          simp [hr, hv]
        rw [userBinding, if_pos this, if_pos hv]
      · have : ¬ ({ r with socketId := some sid }).username = v := by
          simp [hr]; exact fun h => hv h.symm
        rw [userBinding, if_neg this, if_neg hv, userBinding]
        have : ¬ r.username = v := by rw [hr]; exact fun h => hv h.symm
        rw [if_neg this]
    · rw [findOneAndUpdateUser, if_neg hr]
      by_cases hrv : r.username = v
      · have hv : ¬ v = u := fun h => hr (hrv.trans h)
        rw [userBinding, if_pos hrv, if_neg hv, userBinding, if_pos hrv]
      · rw [userBinding, if_neg hrv, ih, userBinding, if_neg hrv]

theorem userBinding_unsetSocketIdFirst (us : List UserRec) (sid : Nat)
    (v : String) (hsq : SockUnique us) :
    userBinding (unsetSocketIdFirst us sid) v =
      if userBinding us v = some sid then none else userBinding us v := by
  induction us with
  | nil => simp [unsetSocketIdFirst, userBinding]
  | cons r rest ih =>
    have hd : ∀ q ∈ rest, sockDisjoint r q := (List.pairwise_cons.mp hsq).1
    have tl : SockUnique rest := (List.pairwise_cons.mp hsq).2
    by_cases hr : r.socketId = some sid
    · rw [unsetSocketIdFirst, if_pos hr]
      by_cases hrv : r.username = v
      · have h1 : ({ r with socketId := none }).username = v := hrv
        rw [userBinding, if_pos h1, userBinding, if_pos hrv, if_pos hr]
      · have h1 : ¬ ({ r with socketId := none }).username = v := hrv
        rw [userBinding, if_neg h1, userBinding, if_neg hrv]
        have hno : ¬ userBinding rest v = some sid := by
          intro hbv
          obtain ⟨q, hq, _, hqs⟩ := userBinding_eq_some hbv
          exact hd q hq sid hr hqs
        rw [if_neg hno]
    · rw [unsetSocketIdFirst, if_neg hr]
      by_cases hrv : r.username = v
      · rw [userBinding, if_pos hrv, userBinding, if_pos hrv, if_neg hr]
      · rw [userBinding, if_neg hrv, userBinding, if_neg hrv, ih tl]

/-! ## Preservation of the structural invariants -/

theorem nodupNames_findOneAndUpdateUser {us : List UserRec} {u : String}
    {sid now : Nat} (h : NodupNames us) :
    NodupNames (findOneAndUpdateUser us u sid now) := by
  induction us with
  | nil => simp [findOneAndUpdateUser, NodupNames]
  | cons r rest ih =>
    have hhead : r.username ∉ rest.map fun q => q.username :=
      (List.nodup_cons.mp h).1
    have htail : NodupNames rest := (List.nodup_cons.mp h).2
    by_cases hr : r.username = u
    · unfold NodupNames
      rw [findOneAndUpdateUser, if_pos hr]
      simp only [List.map_cons]
      exact List.nodup_cons.mpr ⟨hhead, htail⟩
    · unfold NodupNames
      rw [findOneAndUpdateUser, if_neg hr]
      simp only [List.map_cons]
      refine List.nodup_cons.mpr ⟨?_, ih htail⟩
      intro hmem
      obtain ⟨q, hq, hqe⟩ := List.mem_map.mp hmem
      rcases mem_findOneAndUpdateUser hq with h1 | h1
      · exact hhead (List.mem_map.mpr ⟨q, h1, hqe⟩)
      · exact hr (hqe ▸ h1.1)

theorem map_username_unsetSocketIdFirst (us : List UserRec) (sid : Nat) :
    (unsetSocketIdFirst us sid).map (fun r => r.username) =
      us.map fun r => r.username := by
  induction us with
  | nil => rfl
  | cons r rest ih =>
    by_cases hr : r.socketId = some sid
    · rw [unsetSocketIdFirst, if_pos hr]; simp
    · rw [unsetSocketIdFirst, if_neg hr]; simp [ih]

theorem nodupNames_unsetSocketIdFirst {us : List UserRec} {sid : Nat}
    (h : NodupNames us) : NodupNames (unsetSocketIdFirst us sid) := by
  unfold NodupNames
  rw [map_username_unsetSocketIdFirst]
  exact h

theorem sockUnique_findOneAndUpdateUser {us : List UserRec} {u : String}
    {sid now : Nat} (hsq : SockUnique us) (hn : NodupNames us)
    (hfree : ∀ r ∈ us, r.username ≠ u → r.socketId ≠ some sid) :
    SockUnique (findOneAndUpdateUser us u sid now) := by
  induction us with
  | nil => simp [findOneAndUpdateUser, SockUnique]
  | cons r rest ih =>
    have hd : ∀ q ∈ rest, sockDisjoint r q := (List.pairwise_cons.mp hsq).1
    have tl : SockUnique rest := (List.pairwise_cons.mp hsq).2
    have hhead : r.username ∉ rest.map fun q => q.username :=
      (List.nodup_cons.mp hn).1
    have htail : NodupNames rest := (List.nodup_cons.mp hn).2
    by_cases hr : r.username = u
    · rw [findOneAndUpdateUser, if_pos hr]
      refine List.pairwise_cons.mpr ⟨?_, tl⟩
      intro q hq s hs
      have hqu : q.username ≠ u := by
        intro hqe
        exact hhead (List.mem_map.mpr ⟨q, hq, hqe.trans hr.symm⟩)
      have : some sid = some s := hs
      have hss : s = sid := by injection this.symm
      subst hss
      exact hfree q (List.mem_cons_of_mem _ hq) hqu
    · rw [findOneAndUpdateUser, if_neg hr]
      refine List.pairwise_cons.mpr ⟨?_, ?_⟩
      · intro q hq s hs
        rcases mem_findOneAndUpdateUser hq with h1 | h1
        · exact hd q h1 s hs
        · rw [h1.2]
          intro hc
          have hss : sid = s := by injection hc
          subst hss
          exact hfree r (List.mem_cons_self _ _) hr hs
      · exact ih tl htail fun q hq => hfree q (List.mem_cons_of_mem _ hq)

theorem sockUnique_unsetSocketIdFirst {us : List UserRec} {sid : Nat}
    (hsq : SockUnique us) : SockUnique (unsetSocketIdFirst us sid) := by
  induction us with
  | nil => simp [unsetSocketIdFirst, SockUnique]
  | cons r rest ih =>
    have hd : ∀ q ∈ rest, sockDisjoint r q := (List.pairwise_cons.mp hsq).1
    have tl : SockUnique rest := (List.pairwise_cons.mp hsq).2
    by_cases hr : r.socketId = some sid
    · rw [unsetSocketIdFirst, if_pos hr]
      refine List.pairwise_cons.mpr ⟨?_, tl⟩
      intro q hq s hs
      exact absurd hs (by simp)
    · rw [unsetSocketIdFirst, if_neg hr]
      refine List.pairwise_cons.mpr ⟨?_, ih tl⟩
      intro q hq s hs
      rcases mem_unsetSocketIdFirst hq with h1 | ⟨r', hr', he⟩
      · exact hd q h1 s hs
      · rw [he]; simp

theorem sockFromTrace_mono {tr : List Event} {us : List UserRec}
    (e : Event) (h : SockFromTrace tr us) : SockFromTrace (tr ++ [e]) us :=
  fun r hr s hs => List.mem_append_left _ (h r hr s hs)

theorem sockFromTrace_findOneAndUpdateUser {tr : List Event}
    {us : List UserRec} {u : String} {sid now : Nat}
    (h : SockFromTrace tr us) :
    SockFromTrace (tr ++ [Event.register u sid])
      (findOneAndUpdateUser us u sid now) := by
  intro q hq s hs
  rcases mem_findOneAndUpdateUser hq with h1 | h1
  · exact List.mem_append_left _ (h q h1 s hs)
  · have hsid : sid = s := by rw [h1.2] at hs; injection hs
    subst hsid
    rw [h1.1]
    exact List.mem_append_right _ (List.mem_singleton.mpr rfl)

theorem sockFromTrace_unsetSocketIdFirst {tr : List Event}
    {us : List UserRec} {sid : Nat} (e : Event) (h : SockFromTrace tr us) :
    SockFromTrace (tr ++ [e]) (unsetSocketIdFirst us sid) := by
  intro q hq s hs
  rcases mem_unsetSocketIdFirst hq with h1 | ⟨r', hr', he⟩
  · exact List.mem_append_left _ (h q h1 s hs)
  · rw [he] at hs; simp at hs

/-! ## Shapes of the four event steps -/

theorem stepState_register_users (st : ServerState) (u : String) (sid : Nat) :
    (stepState st (Event.register u sid)).users =
      findOneAndUpdateUser st.users u sid st.time := rfl

theorem stepState_disconnect_users (st : ServerState) (sid : Nat) :
    (stepState st (Event.disconnect sid)).users =
      unsetSocketIdFirst st.users sid := rfl

theorem sendMessage_users (st : ServerState) (sid : Nat) (p : MsgPayload) :
    (sendMessage st sid p).1.users = st.users := by
  unfold sendMessage
  cases st.users.find? fun r => r.socketId = some sid <;> rfl

theorem stepState_send_users (st : ServerState) (sid : Nat) (p : MsgPayload) :
    (stepState st (Event.send sid p)).users = st.users := by
  unfold stepState step
  simp only
  rw [sendMessage_users]

theorem stepState_clear_users (st : ServerState) :
    (stepState st Event.clear).users = st.users := rfl

theorem stepState_register_messages (st : ServerState) (u : String)
    (sid : Nat) :
    (stepState st (Event.register u sid)).messages = st.messages := rfl

theorem stepState_disconnect_messages (st : ServerState) (sid : Nat) :
    (stepState st (Event.disconnect sid)).messages = st.messages := rfl

theorem stepState_clear_messages (st : ServerState) :
    (stepState st Event.clear).messages = [] := rfl

theorem sendMessage_messages_extend (st : ServerState) (sid : Nat)
    (p : MsgPayload) :
    ∃ tail, (sendMessage st sid p).1.messages = st.messages ++ tail := by
  unfold sendMessage
  cases st.users.find? fun r => r.socketId = some sid with
  | none => exact ⟨[], by simp⟩
  | some r => exact ⟨_, rfl⟩

/-! ## Membership in the online-users list -/

theorem mem_onlineUsernames {us : List UserRec} {u : String} :
    u ∈ onlineUsernames us ↔
      ∃ r ∈ us, r.socketId.isSome ∧ r.username = u := by
  unfold onlineUsernames
  simp only [List.mem_map, List.mem_filter]
  constructor
  · rintro ⟨r, ⟨hr, hsome⟩, he⟩
    exact ⟨r, hr, hsome, he⟩
  · rintro ⟨r, hr, hsome, he⟩
    exact ⟨r, ⟨hr, hsome⟩, he⟩

theorem mem_onlineUsernames_iff_userBinding {us : List UserRec} {u : String}
    (hn : NodupNames us) :
    u ∈ onlineUsernames us ↔ (userBinding us u).isSome := by
  rw [mem_onlineUsernames]
  induction us with
  | nil => simp [userBinding]
  | cons r rest ih =>
    have hhead : r.username ∉ rest.map fun q => q.username :=
      (List.nodup_cons.mp hn).1
    have htail : NodupNames rest := (List.nodup_cons.mp hn).2
    by_cases hr : r.username = u
    · rw [userBinding, if_pos hr]
      constructor
      · rintro ⟨q, hq, hsome, he⟩
        rcases List.mem_cons.mp hq with h | h
        · rw [← h]; exact hsome
        · exact absurd (List.mem_map.mpr ⟨q, h, he.trans hr.symm⟩) hhead
      · intro hsome
        exact ⟨r, List.mem_cons_self _ _, hsome, hr⟩
    · rw [userBinding, if_neg hr]
      rw [← ih htail]
      constructor
      · rintro ⟨q, hq, hsome, he⟩
        rcases List.mem_cons.mp hq with h | h
        · exact absurd (h ▸ he) hr
        · exact ⟨q, h, hsome, he⟩
      · rintro ⟨q, hq, hsome, he⟩
        exact ⟨q, List.mem_cons_of_mem _ hq, hsome, he⟩

/-! ## The presence invariant

For traces in which every connection registers at most one username, the
implementation's per-username binding coincides with the specification's
forward binding, and the user collection keeps nodup usernames and pairwise
distinct live socket ids. -/

theorem usersInvariant (tr : List Event) :
    OneNamePerSocket tr →
      NodupNames (runTrace tr).users ∧ SockUnique (runTrace tr).users ∧
      SockFromTrace tr (runTrace tr).users ∧
      ∀ u, userBinding (runTrace tr).users u = specBinding tr u := by
  induction tr using List.reverseRecOn with
  | nil =>
    intro _
    refine ⟨?_, ?_, ?_, ?_⟩
    · simp [runTrace, runFrom, initState, NodupNames]
    · simp [runTrace, runFrom, initState, SockUnique]
    · intro r hr
      simp [runTrace, runFrom, initState] at hr
    · intro u
      simp [runTrace, runFrom, initState, userBinding, specBinding]
  | append_singleton tr e ih =>
    intro h
    obtain ⟨hn, hsq, hsf, hb⟩ := ih h.of_append_single
    rw [runTrace_append_single]
    cases e with
    | register u sid =>
      have hfree : ∀ r ∈ (runTrace tr).users, r.username ≠ u →
          r.socketId ≠ some sid := by
        intro r hr hne hc
        have h1 : Event.register r.username sid ∈ tr := hsf r hr sid hc
        have h2 : Event.register u sid ∈ tr ++ [Event.register u sid] :=
          List.mem_append_right _ (List.mem_singleton.mpr rfl)
        exact hne (h r.username sid u (List.mem_append_left _ h1) h2)
      refine ⟨?_, ?_, ?_, ?_⟩
      · rw [stepState_register_users]
        exact nodupNames_findOneAndUpdateUser hn
      · rw [stepState_register_users]
        exact sockUnique_findOneAndUpdateUser hsq hn hfree
      · rw [stepState_register_users]
        exact sockFromTrace_findOneAndUpdateUser hsf
      · intro v
        rw [stepState_register_users, userBinding_findOneAndUpdateUser,
          specBinding_append_single]
        by_cases hv : v = u
        · simp [specBindingStep, hv]
        · have : ¬ u = v := fun hc => hv hc.symm
          simp [specBindingStep, hv, this, hb v]
    | disconnect sid =>
      refine ⟨?_, ?_, ?_, ?_⟩
      · rw [stepState_disconnect_users]
        exact nodupNames_unsetSocketIdFirst hn
      · rw [stepState_disconnect_users]
        exact sockUnique_unsetSocketIdFirst hsq
      · rw [stepState_disconnect_users]
        exact sockFromTrace_unsetSocketIdFirst _ hsf
      · intro v
        rw [stepState_disconnect_users,
          userBinding_unsetSocketIdFirst _ _ _ hsq,
          specBinding_append_single, hb v]
        rfl
    | send sid p =>
      refine ⟨?_, ?_, ?_, ?_⟩
      · rw [stepState_send_users]; exact hn
      · rw [stepState_send_users]; exact hsq
      · rw [stepState_send_users]; exact sockFromTrace_mono _ hsf
      · intro v
        rw [stepState_send_users, specBinding_append_single, hb v]
        rfl
    | clear =>
      refine ⟨?_, ?_, ?_, ?_⟩
      · rw [stepState_clear_users]; exact hn
      · rw [stepState_clear_users]; exact hsq
      · rw [stepState_clear_users]; exact sockFromTrace_mono _ hsf
      · intro v
        rw [stepState_clear_users, specBinding_append_single, hb v]
        rfl

/-! ## Remaining helper lemmas -/

theorem jsOrEmpty_eq_getD (o : Option String) : jsOrEmpty o = o.getD "" := by
  cases o <;> rfl

theorem jsOrNull_eq_ite (o : Option String) :
    jsOrNull o = if o = some "" then none else o := by
  cases o with
  | none => rfl
  | some s =>
    by_cases hs : s = ""
    · simp [jsOrNull, hs]
    · simp [jsOrNull, hs]

theorem runFrom_cons (st : ServerState) (e : Event) (rest : List Event) :
    runFrom st (e :: rest) = runFrom (stepState st e) rest := rfl

/-- Decidable check: the event is not a `clearChat`. -/
def nonClearEvent : Event → Bool
  | Event.clear => false
  | _ => true

theorem stepState_send_messages (st : ServerState) (sid : Nat)
    (p : MsgPayload) :
    (stepState st (Event.send sid p)).messages =
      (sendMessage st sid p).1.messages := rfl

theorem messages_persist_runFrom (tr : List Event) :
    ∀ st : ServerState, tr.all nonClearEvent = true →
      ∃ tail, (runFrom st tr).messages = st.messages ++ tail := by
  induction tr with
  | nil => intro st _; exact ⟨[], by simp [runFrom]⟩
  | cons e rest ih =>
    intro st hall
    have h1 : nonClearEvent e = true ∧ rest.all nonClearEvent = true := by
      simpa using hall
    rw [runFrom_cons]
    have hstep : ∃ t1, (stepState st e).messages = st.messages ++ t1 := by
      cases e with
      | register u sid => exact ⟨[], by rw [stepState_register_messages]; simp⟩
      | disconnect sid => exact ⟨[], by rw [stepState_disconnect_messages]; simp⟩
      | send sid p =>
        rw [stepState_send_messages]
        exact sendMessage_messages_extend st sid p
      | clear => simp [nonClearEvent] at h1
    obtain ⟨t1, ht1⟩ := hstep
    obtain ⟨t2, ht2⟩ := ih (stepState st e) h1.2
    exact ⟨t1 ++ t2, by rw [ht2, ht1, List.append_assoc]⟩

/-- Decidable check for one event: it neither disconnects connection `c`
nor registers username `u`. -/
def avoidsEvent (u : String) (c : Nat) : Event → Bool
  | Event.disconnect s => decide (s ≠ c)
  | Event.register v _ => decide (v ≠ u)
  | _ => true

theorem record_persists (rest : List Event) :
    ∀ st : ServerState, ∀ u : String, ∀ c : Nat,
      rest.all (avoidsEvent u c) = true →
      (∃ r ∈ st.users, r.username = u ∧ r.socketId = some c) →
      ∃ r ∈ (runFrom st rest).users, r.username = u ∧ r.socketId = some c := by
  induction rest with
  | nil => intro st u c _ hex; exact hex
  | cons e tail ih =>
    intro st u c hall hex
    have h1 : avoidsEvent u c e = true ∧ tail.all (avoidsEvent u c) = true := by
      simpa using hall
    rw [runFrom_cons]
    refine ih _ u c h1.2 ?_
    obtain ⟨r, hr, hru, hrc⟩ := hex
    cases e with
    | register v sid =>
      have hvu : v ≠ u := by simpa [avoidsEvent] using h1.1
      refine ⟨r, ?_, hru, hrc⟩
      rw [stepState_register_users]
      exact mem_findOneAndUpdateUser_of_ne hr (by rw [hru]; exact fun hc => hvu hc.symm)
    | disconnect s =>
      have hsc : s ≠ c := by simpa [avoidsEvent] using h1.1
      refine ⟨r, ?_, hru, hrc⟩
      rw [stepState_disconnect_users]
      refine mem_unsetSocketIdFirst_of_ne hr ?_
      rw [hrc]
      exact fun hc => hsc (Option.some.inj hc).symm
    | send sid p =>
      refine ⟨r, ?_, hru, hrc⟩
      rw [stepState_send_users]
      exact hr
    | clear =>
      refine ⟨r, ?_, hru, hrc⟩
      rw [stepState_clear_users]
      exact hr

theorem username_socket_after_update {us : List UserRec} {u : String}
    {sid now : Nat} (hn : NodupNames us) :
    ∀ q ∈ findOneAndUpdateUser us u sid now, q.username = u →
      q.socketId = some sid := by
  induction us with
  | nil =>
    intro q hq _
    simp [findOneAndUpdateUser] at hq
    subst hq; rfl
  | cons r rest ih =>
    have hhead : r.username ∉ rest.map fun q => q.username :=
      (List.nodup_cons.mp hn).1
    have htail : NodupNames rest := (List.nodup_cons.mp hn).2
    intro q hq hqu
    by_cases hr : r.username = u
    · rw [findOneAndUpdateUser, if_pos hr] at hq
      rcases List.mem_cons.mp hq with h | h
      · subst h; rfl
      · exact absurd (List.mem_map.mpr ⟨q, h, hqu.trans hr.symm⟩) hhead
    · rw [findOneAndUpdateUser, if_neg hr] at hq
      rcases List.mem_cons.mp hq with h | h
      · exact absurd (h ▸ hqu) hr
      · exact ih htail q h hqu

/-! ## Claim theorems -/

/-- Trace on which the implementation disagrees with the spec's presence
characterisation: one connection registers two usernames. -/
def cexTrace : List Event :=
  [Event.register "A" 1, Event.register "B" 1, Event.disconnect 1]

/-- C1 (counterexample): the trace register("A",1); register("B",1);
disconnect(1) consists only of registerUser/disconnect events, yet "B" is
reported online by GET /online-users although B's most recent registration
was followed by a disconnect of the connection (socket 1) that made it. -/
theorem online_users_spec_mismatch :
    cexTrace.all presenceEvent = true ∧
    "B" ∈ getOnlineUsers (runTrace cexTrace) ∧
    specOnline cexTrace "B" = false := by decide

/-- C1 (amended): for sequential traces of registerUser and disconnect
events in which each connection registers at most one username, the list
returned by GET /online-users contains a username exactly when its most
recent registration has not been followed by a disconnect of the connection
that made it; and (unconditionally) a username is reported online exactly
when some user record carries it with a present socketId. -/
theorem online_users_iff_spec_presence (tr : List Event)
    (_hpres : tr.all presenceEvent = true)
    (hone : oneNamePerSocket tr = true) :
    (∀ st u, u ∈ getOnlineUsers st ↔
      ∃ r ∈ st.users, r.socketId.isSome ∧ r.username = u) ∧
    ∀ u, u ∈ getOnlineUsers (runTrace tr) ↔ specOnline tr u = true := by
  have hinv := usersInvariant tr (oneNamePerSocket_sound tr hone)
  refine ⟨fun st u => mem_onlineUsernames, fun u => ?_⟩
  rw [getOnlineUsers, mem_onlineUsernames_iff_userBinding hinv.1,
    hinv.2.2.2 u, specOnline_eq_isSome]

/-- Well-behaved presence trace for the C1 witness. -/
def wTrace1 : List Event :=
  [Event.register "alice" 1, Event.register "bob" 2, Event.disconnect 1]

/-- C1 (witness): the amended theorem applied to a concrete trace. -/
theorem online_users_iff_spec_presence_w :
    "bob" ∈ getOnlineUsers (runTrace wTrace1) ↔
      specOnline wTrace1 "bob" = true :=
  (online_users_iff_spec_presence wTrace1 (by decide) (by decide)).2 "bob"

/-- C2: a sendMessage from a connection whose socket id matches no user
record yields exactly one error event "Unauthorized user" to that
connection, leaves the state (hence the persisted message count) unchanged,
and broadcasts nothing. -/
theorem unauthorized_send_rejected (st : ServerState) (sid : Nat)
    (p : MsgPayload) (h : ∀ r ∈ st.users, r.socketId ≠ some sid) :
    sendMessage st sid p = (st, [Emit.toSocketError sid "Unauthorized user"]) ∧
    (sendMessage st sid p).1.messages.length = st.messages.length := by
  have hf : st.users.find? (fun r => r.socketId = some sid) = none := by
    rw [List.find?_eq_none]
    intro r hr
    simpa using h r hr
  constructor
  · unfold sendMessage; rw [hf]
  · unfold sendMessage; rw [hf]

/-- State with one registered user, for witnesses. -/
def oneUserState : ServerState := ⟨[⟨"alice", some 1, 0⟩], [], 0, 5⟩

/-- C2 (witness): concrete unauthorized send. -/
theorem unauthorized_send_rejected_w :
    sendMessage oneUserState 2 ⟨some "hi", none, none⟩ =
      (oneUserState, [Emit.toSocketError 2 "Unauthorized user"]) ∧
    (sendMessage oneUserState 2 ⟨some "hi", none, none⟩).1.messages.length =
      oneUserState.messages.length :=
  unauthorized_send_rejected oneUserState 2 ⟨some "hi", none, none⟩ (by decide)

/-- Payload whose fileUrl is present but empty, falsified to null by `||`. -/
def emptyUrlPayload : MsgPayload := ⟨some "hi", some "", none⟩

/-- C3 (counterexample): a registered sender's payload with
fileUrl present and equal to "" is persisted with fileUrl null, not with the
payload's value, because `data.fileUrl || null` treats "" as falsy. -/
theorem send_fileUrl_empty_string_mismatch :
    emptyUrlPayload.fileUrl = some "" ∧
    (sendMessage oneUserState 1 emptyUrlPayload).1.messages =
      [⟨0, "alice", "hi", none, none, 5⟩] ∧
    ∀ m ∈ (sendMessage oneUserState 1 emptyUrlPayload).1.messages,
      m.fileUrl ≠ emptyUrlPayload.fileUrl := by decide

/-- C3 (amended): a sendMessage from a registered connection persists and
broadcasts one message whose sender is the matched user's username, content
the payload's content or "" when absent, fileUrl/fileType the payload's
values when present and non-empty and null when absent or empty, with the
store-assigned id and the server-assigned timestamp; the broadcast carries
exactly the saved message. -/
theorem send_message_persists_and_broadcasts (st : ServerState) (sid : Nat)
    (p : MsgPayload) (r : UserRec)
    (h : st.users.find? (fun x => x.socketId = some sid) = some r) :
    sendMessage st sid p =
      ({ st with
          messages := st.messages ++
            [⟨st.nextId, r.username, p.content.getD "",
              if p.fileUrl = some "" then none else p.fileUrl,
              if p.fileType = some "" then none else p.fileType, st.time⟩],
          nextId := st.nextId + 1 },
        [Emit.broadcastReceiveMessage (BroadcastPayload.msg
          ⟨st.nextId, r.username, p.content.getD "",
            if p.fileUrl = some "" then none else p.fileUrl,
            if p.fileType = some "" then none else p.fileType, st.time⟩)]) := by
  simp [sendMessage, h, jsOrEmpty_eq_getD, jsOrNull_eq_ite]

/-- C3 (witness): concrete authorized send of content "hi". -/
theorem send_message_persists_and_broadcasts_w :
    sendMessage oneUserState 1 ⟨some "hi", none, none⟩ =
      ({ oneUserState with
          messages := [⟨0, "alice", "hi", none, none, 5⟩], nextId := 1 },
        [Emit.broadcastReceiveMessage
          (BroadcastPayload.msg ⟨0, "alice", "hi", none, none, 5⟩)]) := by
  have h := send_message_persists_and_broadcasts oneUserState 1
    ⟨some "hi", none, none⟩ ⟨"alice", some 1, 0⟩ (by decide)
  simpa [oneUserState] using h

/-- C4: after clearChat the message collection is empty, GET /messages
returns an empty array, and the one emission is a broadcast
receiveMessage carrying the empty list — independent of the prior state,
and of the issuing connection (the handler ignores the socket). -/
theorem clear_chat_empties_and_broadcasts (st : ServerState) :
    (stepState st Event.clear).messages = [] ∧
    getMessages (stepState st Event.clear) = [] ∧
    (step st Event.clear).2 =
      [Emit.broadcastReceiveMessage (BroadcastPayload.list [])] ∧
    clearChat st = ({ st with messages := [] },
      [Emit.broadcastReceiveMessage (BroadcastPayload.list [])]) :=
  ⟨rfl, rfl, rfl, rfl⟩

/-- C5 (counterexample): on a store failure, the clearChat handler — which
has no try/catch — logs nothing and emits nothing; the rejection escapes
the handler uncaught, contradicting the claim that every real-time handler
logs the error to the console. -/
theorem clear_chat_store_failure_not_logged :
    (clearChatF initState (some "store down")).logs = [] ∧
    (clearChatF initState (some "store down")).emits = [] ∧
    (clearChatF initState (some "store down")).uncaught =
      some "store down" := by decide

/-- C5 (amended): on a store failure both HTTP handlers respond 500 with
the raw error message; registerUser, sendMessage and disconnect log the
error and drop the operation without notifying the client; clearChat
neither logs nor notifies — the failure escapes it uncaught. -/
theorem store_failure_handling (st : ServerState) (e u : String) (sid : Nat)
    (p : MsgPayload) :
    getMessagesF st (some e) = HttpResult.serverError e ∧
    getOnlineUsersF st (some e) = HttpResult.serverError e ∧
    registerUserF st u sid (some e) = ⟨st, [], [e], none⟩ ∧
    sendMessageF st sid p (some e) = ⟨st, [], [e], none⟩ ∧
    disconnectUserF st sid (some e) = ⟨st, [], [e], none⟩ ∧
    clearChatF st (some e) = ⟨st, [], [], some e⟩ :=
  ⟨rfl, rfl, rfl, rfl, rfl, rfl⟩

/-- C6: POST /upload without a file part responds 400 with an error
payload; with a file part whose original name has extension E it responds
with fileUrl "/uploads/" ++ the numeric timestamp ++ E and fileType the
file's detected MIME type. -/
theorem upload_endpoint_behavior (f : UploadedFile) (now : Nat) (E : String)
    (hE : extname f.originalname = E) :
    uploadHandler none now = UploadResp.badRequest "No file uploaded" ∧
    uploadHandler (some f) now =
      UploadResp.ok ("/uploads/" ++ toString now ++ E) f.mimetype := by
  subst hE
  exact ⟨rfl, rfl⟩

/-- C6 (witness): uploading photo.png. -/
theorem upload_endpoint_behavior_w :
    uploadHandler none 1700000000000 =
      UploadResp.badRequest "No file uploaded" ∧
    uploadHandler (some ⟨"photo.png", "image/png"⟩) 1700000000000 =
      UploadResp.ok ("/uploads/" ++ toString 1700000000000 ++ ".png")
        "image/png" :=
  upload_endpoint_behavior ⟨"photo.png", "image/png"⟩ 1700000000000 ".png"
    (by decide)

/-- C7: when username u registered from connection c1 is re-registered from
connection c2, u's record(s) now bind socket c2 (last registration wins),
and — provided c1 registered no other username — a subsequent sendMessage
from c1 is rejected as unauthorized, leaving the state unchanged. -/
theorem reregistration_last_wins (st : ServerState) (u : String)
    (c1 c2 : Nat) (p : MsgPayload) (hne : c1 ≠ c2)
    (hn : NodupNames st.users)
    (hc1 : ∀ r ∈ st.users, r.socketId = some c1 → r.username = u) :
    userBinding (registerUser (registerUser st u c1).1 u c2).1.users u =
      some c2 ∧
    (∀ r ∈ (registerUser (registerUser st u c1).1 u c2).1.users,
      r.username = u → r.socketId = some c2) ∧
    sendMessage (registerUser (registerUser st u c1).1 u c2).1 c1 p =
      ((registerUser (registerUser st u c1).1 u c2).1,
        [Emit.toSocketError c1 "Unauthorized user"]) := by
  have h2 : (registerUser (registerUser st u c1).1 u c2).1.users =
      findOneAndUpdateUser (findOneAndUpdateUser st.users u c1 st.time) u c2
        (registerUser st u c1).1.time := rfl
  have hn1 : NodupNames (findOneAndUpdateUser st.users u c1 st.time) :=
    nodupNames_findOneAndUpdateUser hn
  have hb : ∀ r ∈ (registerUser (registerUser st u c1).1 u c2).1.users,
      r.username = u → r.socketId = some c2 := by
    intro r hr hru
    exact username_socket_after_update hn1 r (h2 ▸ hr) hru
  have hno : ∀ r ∈ (registerUser (registerUser st u c1).1 u c2).1.users,
      r.socketId ≠ some c1 := by
    intro r hr
    by_cases hru : r.username = u
    · rw [hb r hr hru]
      exact fun hc => hne (Option.some.inj hc).symm
    · rw [h2] at hr
      rcases mem_findOneAndUpdateUser hr with h3 | h3
      · rcases mem_findOneAndUpdateUser h3 with h4 | h4
        · exact fun hc => hru (hc1 r h4 hc)
        · exact absurd h4.1 hru
      · exact absurd h3.1 hru
  refine ⟨?_, hb, ?_⟩
  · rw [h2, userBinding_findOneAndUpdateUser]
    simp
  · have hf : (registerUser (registerUser st u c1).1 u c2).1.users.find?
        (fun x => x.socketId = some c1) = none := by
      rw [List.find?_eq_none]
      intro r hr
      simpa using hno r hr
    unfold sendMessage
    rw [hf]

/-- C7 (witness): alice registers from socket 1, then from socket 2. -/
theorem reregistration_last_wins_w :
    userBinding
      (registerUser (registerUser initState "alice" 1).1 "alice" 2).1.users
      "alice" = some 2 ∧
    (∀ r ∈ (registerUser (registerUser initState "alice" 1).1 "alice"
        2).1.users, r.username = "alice" → r.socketId = some 2) ∧
    sendMessage (registerUser (registerUser initState "alice" 1).1 "alice"
        2).1 1 ⟨some "hi", none, none⟩ =
      ((registerUser (registerUser initState "alice" 1).1 "alice" 2).1,
        [Emit.toSocketError 1 "Unauthorized user"]) :=
  reregistration_last_wins initState "alice" 1 2 ⟨some "hi", none, none⟩
    (by decide) (by simp [NodupNames, initState]) (by simp [initState])

/-- C8: message records are never modified: registerUser and disconnect
leave the message collection unchanged, an unauthorized sendMessage leaves
it unchanged, an accepted sendMessage appends exactly one new record,
clearChat empties it, and over any sequence of non-clearChat events every
previously persisted message is still present, identical, in place. -/
theorem message_collection_frame :
    (∀ st u sid, (stepState st (Event.register u sid)).messages =
      st.messages) ∧
    (∀ st sid, (stepState st (Event.disconnect sid)).messages =
      st.messages) ∧
    (∀ st sid p, st.users.find? (fun r => r.socketId = some sid) = none →
      (sendMessage st sid p).1.messages = st.messages) ∧
    (∀ st sid p r,
      st.users.find? (fun r => r.socketId = some sid) = some r →
      (sendMessage st sid p).1.messages = st.messages ++
        [⟨st.nextId, r.username, jsOrEmpty p.content, jsOrNull p.fileUrl,
          jsOrNull p.fileType, st.time⟩]) ∧
    (∀ st, (stepState st Event.clear).messages = []) ∧
    (∀ st tr, tr.all nonClearEvent = true →
      ∃ tail, (runFrom st tr).messages = st.messages ++ tail) := by
  refine ⟨fun st u sid => rfl, fun st sid => rfl, ?_, ?_, fun st => rfl, ?_⟩
  · intro st sid p h
    simp [sendMessage, h]
  · intro st sid p r h
    simp [sendMessage, h]
  · intro st tr h
    exact messages_persist_runFrom tr st h

/-- Non-clearChat trace used by the C8 witness. -/
def wTrace8 : List Event :=
  [Event.register "alice" 1, Event.send 1 ⟨some "hi", none, none⟩,
    Event.disconnect 1]

/-- C8 (witness): the frame theorem applied at concrete inputs. -/
theorem message_collection_frame_w :
    (∃ tail, (runFrom initState wTrace8).messages =
      initState.messages ++ tail) ∧
    (sendMessage initState 1 ⟨some "hi", none, none⟩).1.messages =
      initState.messages :=
  ⟨message_collection_frame.2.2.2.2.2 initState wTrace8 (by decide),
    message_collection_frame.2.2.1 initState 1 ⟨some "hi", none, none⟩ rfl⟩

/-- C9: a sendMessage from a registered connection whose payload has no
content, no fileUrl and no fileType is still persisted and broadcast, with
content "", fileUrl null and fileType null: the handler performs no
validation that a message carries content or an attachment. -/
theorem send_empty_payload_persists (st : ServerState) (sid : Nat)
    (r : UserRec)
    (h : st.users.find? (fun x => x.socketId = some sid) = some r) :
    sendMessage st sid ⟨none, none, none⟩ =
      ({ st with
          messages := st.messages ++
            [⟨st.nextId, r.username, "", none, none, st.time⟩],
          nextId := st.nextId + 1 },
        [Emit.broadcastReceiveMessage (BroadcastPayload.msg
          ⟨st.nextId, r.username, "", none, none, st.time⟩)]) := by
  simp [sendMessage, h, jsOrEmpty, jsOrNull]

/-- State with one registered user bob, for the C9 witness. -/
def bobState : ServerState := ⟨[⟨"bob", some 3, 0⟩], [], 0, 2⟩

/-- C9 (witness): bob sends an empty payload. -/
theorem send_empty_payload_persists_w :
    sendMessage bobState 3 ⟨none, none, none⟩ =
      ({ bobState with
          messages := [⟨0, "bob", "", none, none, 2⟩], nextId := 1 },
        [Emit.broadcastReceiveMessage
          (BroadcastPayload.msg ⟨0, "bob", "", none, none, 2⟩)]) := by
  have h := send_empty_payload_persists bobState 3 ⟨"bob", some 3, 0⟩
    (by decide)
  simpa [bobState] using h

/-- Trace in which one connection (socket 7) registers usernames A then
B. -/
def traceAB : List Event := [Event.register "A" 7, Event.register "B" 7]

/-- C10: after one connection registers A then B, both records hold socket
7 and both names are online; its disconnect unsets the socketId on only the
first record, so "B" stays online — and remains online across any further
events that neither disconnect socket 7 nor register "B". -/
theorem shared_socket_presence_anomaly (rest : List Event)
    (hrest : rest.all (avoidsEvent "B" 7) = true) :
    (runTrace traceAB).users =
      [⟨"A", some 7, 0⟩, ⟨"B", some 7, 1⟩] ∧
    getOnlineUsers (runTrace traceAB) = ["A", "B"] ∧
    (runTrace (traceAB ++ [Event.disconnect 7])).users =
      [⟨"A", none, 0⟩, ⟨"B", some 7, 1⟩] ∧
    getOnlineUsers (runTrace (traceAB ++ [Event.disconnect 7])) = ["B"] ∧
    "B" ∈ getOnlineUsers
      (runFrom (runTrace (traceAB ++ [Event.disconnect 7])) rest) := by
  refine ⟨by decide, by decide, by decide, by decide, ?_⟩
  have hex : ∃ r ∈ (runTrace (traceAB ++ [Event.disconnect 7])).users,
      r.username = "B" ∧ r.socketId = some 7 := by decide
  have hpersist := record_persists rest _ "B" 7 hrest hex
  rw [getOnlineUsers, mem_onlineUsernames]
  obtain ⟨r, hr, hru, hrc⟩ := hpersist
  refine ⟨r, hr, ?_, hru⟩
  rw [hrc]
  rfl

/-- C10 (witness): events avoiding socket 7 and username B keep the
phantom "B" online. -/
theorem shared_socket_presence_anomaly_w :
    (runTrace traceAB).users =
      [⟨"A", some 7, 0⟩, ⟨"B", some 7, 1⟩] ∧
    getOnlineUsers (runTrace traceAB) = ["A", "B"] ∧
    (runTrace (traceAB ++ [Event.disconnect 7])).users =
      [⟨"A", none, 0⟩, ⟨"B", some 7, 1⟩] ∧
    getOnlineUsers (runTrace (traceAB ++ [Event.disconnect 7])) = ["B"] ∧
    "B" ∈ getOnlineUsers
      (runFrom (runTrace (traceAB ++ [Event.disconnect 7]))
        [Event.register "C" 9, Event.disconnect 9, Event.clear]) :=
  shared_socket_presence_anomaly
    [Event.register "C" 9, Event.disconnect 9, Event.clear] (by decide)

end Connectify
